import Mathlib

/-!
Verification development for the SQL lineage extraction engine of
`src/sql-parser.js` (class `SQLParser`).  The JavaScript code is shallowly
embedded: the mutable instance state (`this.tables`, `this.relationships`,
`this.columns`) becomes an explicit record threaded through the extraction
passes, JS `Map`s (which preserve insertion order) become insertion-ordered
lists keyed by `id`, and the concrete regular expressions of the source are
embedded by dedicated scanning functions whose doc comments cite the regex
they implement.  JS strings are modelled as `List Char`; the `\s` class is
modelled by the ASCII whitespace characters, which covers every input
appearing in the development.
-/

namespace SqlLineage

/-- An entry of a table's `columns` array (`{name, alias}` objects pushed by
`addColumn`, src/sql-parser.js lines 199-206). -/
structure TableColumn where
  name : String
  «alias» : Option String
deriving DecidableEq, Repr

/-- A table record as stored by `addTable` (src/sql-parser.js lines 170-183):
`{id, name, alias, type, columns}`.  `alias` is `null` or a string, modelled
as `Option String`. -/
structure Table where
  id : String
  name : String
  «alias» : Option String
  type : String
  columns : List TableColumn
deriving DecidableEq, Repr

/-- A column record as stored by `addColumn` (src/sql-parser.js lines 185-196):
`{id, table, name, alias, type}` with `type` always `"column"`. -/
structure Column where
  id : String
  table : String
  name : String
  «alias» : Option String
  type : String
deriving DecidableEq, Repr

/-- A relationship record as pushed by `addRelationship`
(src/sql-parser.js lines 210-219). -/
structure Relationship where
  id : String
  source : String
  sourceColumn : String
  target : String
  targetColumn : String
  type : String
deriving DecidableEq, Repr

/-- The mutable state of a `SQLParser` instance: `this.tables` (an
insertion-ordered `Map` keyed by table id), `this.relationships` (an array)
and `this.columns` (an insertion-ordered `Map` keyed by column id). -/
structure SQLParser where
  tables : List Table
  relationships : List Relationship
  columns : List Column
deriving DecidableEq, Repr

/-- The object returned by `parseQuery` (src/sql-parser.js lines 23-27):
the three accumulated collections, `Map` values surfaced in insertion
order. -/
structure Graph where
  tables : List Table
  relationships : List Relationship
  columns : List Column
deriving DecidableEq, Repr

/-- A fresh `new SQLParser()`: empty maps and an empty relationship array. -/
def emptySQLParser : SQLParser := ⟨[], [], []⟩

/-- `parseQuery`'s return value built from the final instance state. -/
def toGraph (st : SQLParser) : Graph := ⟨st.tables, st.relationships, st.columns⟩

/-! ## Character helpers mirroring the JS regex character classes -/

/-- JS `\s` restricted to the ASCII whitespace characters (space, tab,
newline, carriage return). -/
def isWsChar (c : Char) : Bool := c = ' ' ∨ c = '\t' ∨ c = '\n' ∨ c = '\r'

/-- JS `\w`, i.e. `[A-Za-z0-9_]`. -/
def isWordChar (c : Char) : Bool := c.isAlpha ∨ c.isDigit ∨ c = '_'

/-- A JS line terminator, the characters the dot `.` does not match. -/
def isLineTerm (c : Char) : Bool :=
  c = '\n' ∨ c = '\r' ∨ c.toNat = 0x2028 ∨ c.toNat = 0x2029

/-- The character class `[^WHERE|JOIN|GROUP|ORDER|HAVING|LIMIT|;]` used (with
the `i` flag) by `parseFromClause` (line 40) and by the ON-condition part of
the `parseJoins` regex (line 53).  Inside a character class `|` is a literal,
so this class excludes exactly the letters of those keywords (both cases),
the pipe and the semicolon; `clauseStopChar c` holds when `c` is excluded. -/
def clauseStopChar (c : Char) : Bool :=
  "WHEREJOINGROUPORDERHAVINGLIMIT|;".toList.contains c.toUpper

/-- Case-insensitive character comparison, for regexes carrying the `i`
flag. -/
def charCI (a b : Char) : Bool := a.toLower = b.toLower

/-- Case-insensitively match the pattern (first argument) as a prefix of the
input, returning the rest of the input on success. -/
def matchCI : List Char → List Char → Option (List Char)
  | [], s => some s
  | _, [] => none
  | p :: ps, c :: cs => if charCI p c then matchCI ps cs else none

/-- `matchCI` with the pattern given as a string literal. -/
def matchCIs (pat : String) (s : List Char) : Option (List Char) :=
  matchCI pat.toList s

/-- Maximal run of characters satisfying `p` (the greedy matching of a
single-character class under `+`/`*`), returning the run and the rest. -/
def takeRun (p : Char → Bool) : List Char → List Char × List Char
  | [] => ([], [])
  | c :: rest =>
    if p c then
      let r := takeRun p rest
      (c :: r.1, r.2)
    else ([], c :: rest)

/-- Drop ASCII whitespace from both ends (JS `String.prototype.trim`). -/
def myTrim (l : List Char) : List Char :=
  ((l.dropWhile isWsChar).reverse.dropWhile isWsChar).reverse

/-- `myTrim` packaged as a `String`. -/
def trimStr (l : List Char) : String := String.mk (myTrim l)

/-- JS `str.split(',')`: split at every comma, keeping empty segments
(`"".split(',')` is `[""]`). -/
def splitCommaAux : List Char → List Char → List (List Char)
  | [], cur => [cur.reverse]
  | c :: rest, cur =>
    if c = ',' then cur.reverse :: splitCommaAux rest []
    else splitCommaAux rest (c :: cur)

/-- JS `str.split(',')` over a char list. -/
def splitComma (l : List Char) : List (List Char) := splitCommaAux l []

mutual

/-- JS `str.split(/\s+/)`, accumulating the current token (reversed):
splitting at each maximal whitespace run; a leading run contributes a
leading empty segment and a trailing run a trailing empty segment. -/
def jsSplitWsGo : List Char → List Char → List (List Char)
  | [], cur => [cur.reverse]
  | c :: rest, cur =>
    if isWsChar c then cur.reverse :: jsSplitWsSkip rest
    else jsSplitWsGo rest (c :: cur)

/-- Skipping the remainder of a whitespace run for `jsSplitWsGo`. -/
def jsSplitWsSkip : List Char → List (List Char)
  | [] => [[]]
  | c :: rest =>
    if isWsChar c then jsSplitWsSkip rest
    else jsSplitWsGo rest [c]

end

/-- JS `str.split(/\s+/)` over a char list. -/
def jsSplitWs (l : List Char) : List (List Char) := jsSplitWsGo l []

/-- Uppercase a token (JS `String.prototype.toUpperCase`, ASCII). -/
def strUpper (l : List Char) : List Char := l.map Char.toUpper

/-! ## Normalizer: `cleanQuery` (src/sql-parser.js lines 30-36) -/

/-- First replacement of `cleanQuery`: replacing `--.*$` (global, multiline)
by the empty string.  A single
pass with a flag that is set when inside a line comment; the comment runs
from `--` to just before the next line terminator (`.` does not cross it,
`$` in multiline mode matches before it). -/
def stripLineComments : Bool → List Char → List Char
  | _, [] => []
  | true, c :: rest =>
    if c = '\n' ∨ c = '\r' then c :: stripLineComments false rest
    else stripLineComments true rest
  | false, '-' :: '-' :: rest => stripLineComments true rest
  | false, c :: rest => c :: stripLineComments false rest

/-- Whether `*/` occurs somewhere in the input (used to decide whether the
lazy block-comment pattern can match from a given `/*`). -/
def hasBlockClose : List Char → Bool
  | '*' :: '/' :: _ => true
  | _ :: rest => hasBlockClose rest
  | [] => false

/-- Second replacement of `cleanQuery`: `.replace(/\/\*[\s\S]*?\*\//g, '')`.
Single pass with an in-comment flag; a `/*` opens a comment only when a
closing `*/` exists further on (otherwise the lazy pattern cannot match and
the text is kept), and the comment ends at the first `*/`. -/
def stripBlockComments : Bool → List Char → List Char
  | _, [] => []
  | true, '*' :: '/' :: rest => stripBlockComments false rest
  | true, _ :: rest => stripBlockComments true rest
  | false, '/' :: '*' :: rest =>
    if hasBlockClose rest then stripBlockComments true rest
    else '/' :: '*' :: rest
  | false, c :: rest => c :: stripBlockComments false rest

/-- Third replacement of `cleanQuery`: `.replace(/\s+/g, ' ')`, collapsing
each whitespace run to a single space.  The flag records whether the
previous character was whitespace. -/
def collapseWs : Bool → List Char → List Char
  | _, [] => []
  | prevWs, c :: rest =>
    if isWsChar c then
      if prevWs then collapseWs true rest
      else ' ' :: collapseWs true rest
    else c :: collapseWs false rest

/-- `cleanQuery` (src/sql-parser.js lines 30-36) over a char list: strip line
comments, strip block comments, collapse whitespace, trim. -/
def cleanQueryL (l : List Char) : List Char :=
  myTrim (collapseWs false (stripBlockComments false (stripLineComments false l)))

/-- `cleanQuery` on strings. -/
def cleanQuery (q : String) : String := String.mk (cleanQueryL q.toList)

/-! ## Registration: `addTable`, `addColumn`, `addRelationship` -/

/-- `name.replace(/[`"'\[\]]/g, '')` from `addTable` (line 171): strip
backtick, double quote, single quote and square brackets.  The quote
characters are written by code point (96 is the backtick, 34 the double
quote, 39 the apostrophe). -/
def cleanTableName (l : List Char) : List Char :=
  l.filter fun c => ¬ (c.toNat = 96 ∨ c.toNat = 34 ∨ c.toNat = 39 ∨ c = '[' ∨ c = ']')

/-- JS `a || d` for a nullable string `a`: the empty string is falsy. -/
def jsOr (a : Option String) (d : String) : String :=
  match a with
  | some s => if s = "" then d else s
  | none => d

/-- `addTable` (src/sql-parser.js lines 170-183): compute
`tableId = alias || cleanName` and insert a fresh table record only when the
id is not yet a key of `this.tables`. -/
def addTable (st : SQLParser) (name : String) (al : Option String)
    (ty : String) : SQLParser :=
  let cleanName := String.mk (cleanTableName name.toList)
  let tableId := jsOr al cleanName
  if st.tables.any (fun t => t.id = tableId) then st
  else { st with tables := st.tables ++ [⟨tableId, cleanName, al, ty, []⟩] }

/-- Apply `f` to the first element satisfying `p` (a JS `Map.get` followed by
in-place mutation keeps the entry's position). -/
def updateFirst (p : Table → Bool) (f : Table → Table) : List Table → List Table
  | [] => []
  | t :: rest => if p t then f t :: rest else t :: updateFirst p f rest

/-- `addColumn` (src/sql-parser.js lines 185-208): register the column under
`"<tableRef>.<columnName>"` if that id is new, then, when a table with id
`tableRef` exists, push `{name, alias}` onto its `columns` array unless a
column of that name is already there. -/
def addColumn (st : SQLParser) (tableRef columnName : String)
    (al : Option String) : SQLParser :=
  let columnId := tableRef ++ "." ++ columnName
  let st1 :=
    if st.columns.any (fun c => c.id = columnId) then st
    else { st with columns :=
            st.columns ++ [⟨columnId, tableRef, columnName, al, "column"⟩] }
  let attach : Table → Table := fun t =>
    if t.columns.any (fun c => c.name = columnName) then t
    else { t with columns := t.columns ++ [⟨columnName, al⟩] }
  if st1.tables.any (fun t => t.id = tableRef) then
    { st1 with tables := updateFirst (fun t => t.id = tableRef) attach st1.tables }
  else st1

/-- `addRelationship` (src/sql-parser.js lines 210-219): push an edge with
the derived id `"<src>.<srcCol>-><tgt>.<tgtCol>"`. -/
def addRelationship (st : SQLParser) (sourceTable sourceColumn targetTable
    targetColumn ty : String) : SQLParser :=
  { st with relationships := st.relationships ++
      [⟨sourceTable ++ "." ++ sourceColumn ++ "->" ++ targetTable ++ "." ++ targetColumn,
        sourceTable, sourceColumn, targetTable, targetColumn, ty⟩] }

/-! ## Depth-aware splitter: `smartSplit` (src/sql-parser.js lines 221-246) -/

/-- The loop of `smartSplit`: `current` is accumulated in reverse, `depth`
follows the source's counter (a JS number, negative on unbalanced `)`), and
segments are pushed trimmed.  Branch order follows the source: `(` and `)`
are checked before the delimiter, so a parenthesis that is the delimiter
never splits. -/
def smartSplitAux (delim : Char) : List Char → List Char → Int →
    List String → List String
  | [], cur, _, acc =>
    if trimStr cur.reverse = "" then acc else acc ++ [trimStr cur.reverse]
  | c :: rest, cur, depth, acc =>
    if c = '(' then smartSplitAux delim rest (c :: cur) (depth + 1) acc
    else if c = ')' then smartSplitAux delim rest (c :: cur) (depth - 1) acc
    else if c = delim ∧ depth = 0 then
      smartSplitAux delim rest [] depth (acc ++ [trimStr cur.reverse])
    else smartSplitAux delim rest (c :: cur) depth acc

/-- `smartSplit(str, delimiter)` (src/sql-parser.js lines 221-246). -/
def smartSplit (str : String) (delim : Char) : List String :=
  smartSplitAux delim str.toList [] 0 []

/-- The splitter as the specification describes it: "split on the delimiter
only when parenthesis nesting depth is zero at that point.  Depth increases
on `(`, decreases on `)`.  Trailing non-empty remainder is always emitted as
the final segment."  Here the delimiter test is performed first, so a
delimiter occurrence at depth zero always splits, even if the delimiter is a
parenthesis character. -/
def specSmartSplitAux (delim : Char) : List Char → List Char → Int →
    List String → List String
  | [], cur, _, acc =>
    if trimStr cur.reverse = "" then acc else acc ++ [trimStr cur.reverse]
  | c :: rest, cur, depth, acc =>
    if c = delim ∧ depth = 0 then
      specSmartSplitAux delim rest [] depth (acc ++ [trimStr cur.reverse])
    else if c = '(' then specSmartSplitAux delim rest (c :: cur) (depth + 1) acc
    else if c = ')' then specSmartSplitAux delim rest (c :: cur) (depth - 1) acc
    else specSmartSplitAux delim rest (c :: cur) depth acc

/-- `specSmartSplitAux` packaged like `smartSplit`. -/
def specSmartSplit (str : String) (delim : Char) : List String :=
  specSmartSplitAux delim str.toList [] 0 []

/-! ## Table Resolver: `parseFromClause` / `extractTablesFromString` -/

/-- One attempt of the `parseFromClause` regex
`FROM\s+([^WHERE|JOIN|GROUP|ORDER|HAVING|LIMIT|;]+)` (i-flag) at the current
position.  After `FROM` the engine takes the maximal whitespace run `w`
(`\s+`, greedy); if the next character is allowed by the class the group is
the maximal run of allowed characters, otherwise backtracking shortens the
whitespace by one (possible only for `w ≥ 2`, whitespace itself being
allowed by the class) and the group is that single whitespace character.
The value returned is the `tablesPart` the source computes from the match,
`match.replace(FROM-prefix, '').trim()`, together with the rest of the
input after the full match. -/
def tryFromAt (s : List Char) : Option (List Char × List Char) :=
  match matchCIs "FROM" s with
  | none => none
  | some s1 =>
    let ws := takeRun isWsChar s1
    if ws.1.isEmpty then none
    else
      let grp := takeRun (fun c => ¬ clauseStopChar c) ws.2
      if ¬ grp.1.isEmpty then some (myTrim grp.1, grp.2)
      else if 2 ≤ ws.1.length then some ([], ws.2)
      else none

/-- The global scan of `query.match(fromPattern)` (line 41), feeding each
match's `tablesPart` in order.  `gas` bounds the loop and is instantiated
with `length + 1`, which the scan (consuming at least one character per
step) never exhausts. -/
def scanFromAll : Nat → List Char → List (List Char)
  | 0, _ => []
  | _, [] => []
  | gas + 1, s =>
    match tryFromAt s with
    | some r => r.1 :: scanFromAll gas r.2
    | none =>
      match s with
      | [] => []
      | _ :: rest => scanFromAll gas rest

/-- `extractTablesFromString` (src/sql-parser.js lines 89-108): split the
FROM-list on commas; for each trimmed part, skip it when it contains `(`,
otherwise split on whitespace, take the first token as the table name and,
when a second token exists and is not `AS` (case-insensitively), the last
token as the alias. -/
def extractTablesFromString (st : SQLParser) (tableString : List Char) : SQLParser :=
  (splitComma tableString).foldl
    (fun a part =>
      let p := myTrim part
      if p.contains '(' then a
      else
        let tableParts := jsSplitWs p
        match tableParts with
        | [] => a
        | tn :: restParts =>
          let al :=
            match restParts with
            | [] => none
            | second :: _ =>
              if strUpper second = "AS".toList then none
              else some (String.mk ((tn :: restParts).getLast (by simp)))
          addTable a (String.mk tn) al "table")
    st

/-- `parseFromClause` (src/sql-parser.js lines 38-49). -/
def parseFromClause (st : SQLParser) (query : List Char) : SQLParser :=
  (scanFromAll (query.length + 1) query).foldl extractTablesFromString st

/-! ## Join Condition Extractor: `parseJoinCondition` -/

/-- One attempt of the `parseJoinCondition` pattern
`(\w+)\.(\w+)\s*=\s*(\w+)\.(\w+)` at the current position: each quantified
piece is a greedy single-class run and every adjacent pair of pieces is
disjoint, so matching is deterministic.  Returns the four captures and the
rest after the match. -/
def tryCondAt (s : List Char) : Option ((String × String × String × String) × List Char) :=
  let w1 := takeRun isWordChar s
  if w1.1.isEmpty then none else
  match w1.2 with
  | '.' :: r2 =>
    let w2 := takeRun isWordChar r2
    if w2.1.isEmpty then none else
    let sp1 := takeRun isWsChar w2.2
    match sp1.2 with
    | '=' :: r5 =>
      let sp2 := takeRun isWsChar r5
      let w3 := takeRun isWordChar sp2.2
      if w3.1.isEmpty then none else
      match w3.2 with
      | '.' :: r8 =>
        let w4 := takeRun isWordChar r8
        if w4.1.isEmpty then none else
        some ((String.mk w1.1, String.mk w2.1, String.mk w3.1, String.mk w4.1), w4.2)
      | _ => none
    | _ => none
  | _ => none

/-- The `exec` loop of `parseJoinCondition` (src/sql-parser.js lines
134-148): scan for every non-overlapping equality pattern and append one
`join` relationship per match. -/
def parseJoinCondScan (st : SQLParser) : Nat → List Char → SQLParser
  | 0, _ => st
  | _, [] => st
  | gas + 1, s =>
    match tryCondAt s with
    | some r =>
      let st1 := addRelationship st r.1.1 r.1.2.1 r.1.2.2.1 r.1.2.2.2 "join"
      parseJoinCondScan st1 gas r.2
    | none =>
      match s with
      | [] => st
      | _ :: rest => parseJoinCondScan st gas rest

/-- `parseJoinCondition` on a condition string. -/
def parseJoinCondition (st : SQLParser) (condition : List Char) : SQLParser :=
  parseJoinCondScan st (condition.length + 1) condition

/-! ## Table Resolver, JOIN entry point: `parseJoins` -/

/-- The tail `\s+ON\s+([^JOIN|WHERE|GROUP|ORDER|HAVING|LIMIT|;]+)` of the
`parseJoins` regex.  The second `\s+` and the class interact exactly as in
`tryFromAt`: if the character after the maximal whitespace run is excluded
by the class, backtracking (possible for runs of length at least two) makes
the capture a single whitespace character. -/
def onTail (u : List Char) : Option (List Char × List Char) :=
  let ws := takeRun isWsChar u
  if ws.1.isEmpty then none else
  match matchCIs "ON" ws.2 with
  | none => none
  | some u2 =>
    let ws2 := takeRun isWsChar u2
    if ws2.1.isEmpty then none else
    let cond := takeRun (fun c => ¬ clauseStopChar c) ws2.2
    if ¬ cond.1.isEmpty then some (cond.1, cond.2)
    else if 2 ≤ ws2.1.length then
      match ws2.1.reverse with
      | w :: _ => some ([w], ws2.2)
      | [] => none
    else none

/-- The part of the `parseJoins` regex after the optional join qualifier:
`\s*JOIN\s+([^\s]+)(?:\s+(?:AS\s+)?([^\s]+))?\s+ON\s+(...)`.  The optional
alias group is tried with `AS` first, then without, then absent, matching
the regex engine's backtracking order; all remaining choice points are
deterministic because adjacent pieces have disjoint character classes.
Returns table name, optional alias, the ON-condition capture, and the rest
of the input after the full match. -/
def joinTail (s1 : List Char) :
    Option (String × Option String × List Char × List Char) :=
  let sp0 := takeRun isWsChar s1
  match matchCIs "JOIN" sp0.2 with
  | none => none
  | some t1 =>
    let ws1 := takeRun isWsChar t1
    if ws1.1.isEmpty then none else
    let tbl := takeRun (fun c => ¬ isWsChar c) ws1.2
    if tbl.1.isEmpty then none else
    let t3 := tbl.2
    let wsA := takeRun isWsChar t3
    let branchA1 : Option (Option String × List Char × List Char) :=
      if wsA.1.isEmpty then none else
      match matchCIs "AS" wsA.2 with
      | none => none
      | some a2 =>
        let wsB := takeRun isWsChar a2
        if wsB.1.isEmpty then none else
        let al := takeRun (fun c => ¬ isWsChar c) wsB.2
        if al.1.isEmpty then none else
        match onTail al.2 with
        | some r => some (some (String.mk al.1), r.1, r.2)
        | none => none
    let branchA2 : Option (Option String × List Char × List Char) :=
      if wsA.1.isEmpty then none else
      let al := takeRun (fun c => ¬ isWsChar c) wsA.2
      if al.1.isEmpty then none else
      match onTail al.2 with
      | some r => some (some (String.mk al.1), r.1, r.2)
      | none => none
    let branchB : Option (Option String × List Char × List Char) :=
      match onTail t3 with
      | some r => some (none, r.1, r.2)
      | none => none
    match branchA1 <|> branchA2 <|> branchB with
    | some (al, cond, rest) => some (String.mk tbl.1, al, cond, rest)
    | none => none

/-- The join qualifiers of `(?:LEFT|RIGHT|INNER|FULL|CROSS)?`. -/
def joinQualifiers : List String := ["LEFT", "RIGHT", "INNER", "FULL", "CROSS"]

/-- One attempt of the full `parseJoins` regex (src/sql-parser.js line 53) at
the current position: the optional qualifier alternatives are tried in
order (their first letters are distinct, so at most one matches textually)
and then the empty alternative. -/
def tryJoinAt (s : List Char) :
    Option (String × Option String × List Char × List Char) :=
  (joinQualifiers.findSome? fun q => (matchCIs q s).bind joinTail) <|> joinTail s

/-- The `exec` loop of `parseJoins` (src/sql-parser.js lines 51-65): for each
match, register the joined table and extract relationships from the
ON-condition capture. -/
def parseJoinsScan (st : SQLParser) : Nat → List Char → SQLParser
  | 0, _ => st
  | _, [] => st
  | gas + 1, s =>
    match tryJoinAt s with
    | some (tbl, al, cond, rest) =>
      let st1 := addTable st tbl al "table"
      let st2 := parseJoinCondition st1 cond
      parseJoinsScan st2 gas rest
    | none =>
      match s with
      | [] => st
      | _ :: rest => parseJoinsScan st gas rest

/-- `parseJoins` (src/sql-parser.js lines 51-65). -/
def parseJoins (st : SQLParser) (query : List Char) : SQLParser :=
  parseJoinsScan st (query.length + 1) query

/-! ## Lazy-group matcher for `SELECT\s+(.*?)\s+FROM` and
`WITH\s+(.*?)\s+SELECT` -/

/-- The lazy search for `(.*?)\s+KW`: grow the group one character at a
time; at each point the split succeeds when a non-empty whitespace run
followed by the (case-insensitive) keyword starts here (`\s+` greedy is
deterministic because the keyword starts with a non-whitespace letter).
The group cannot absorb a line terminator (`.`). -/
def lazyInner (kw : String) : List Char → List Char → Option (List Char)
  | u, acc =>
    let ws := takeRun isWsChar u
    if ¬ ws.1.isEmpty ∧ (matchCIs kw ws.2).isSome then some acc.reverse
    else
      match u with
      | [] => none
      | c :: rest =>
        if isLineTerm c then none
        else lazyInner kw rest (c :: acc)

/-- Backtracking of the first `\s+` of `KW1\s+(.*?)\s+KW2`: the greedy run
is shortened one character at a time (never below one), each time
re-running the lazy search with the freed whitespace character prepended to
the group's candidate text. -/
def lazyKLoop (kw : String) : List Char → List Char → Option (List Char)
  | wsRev, u =>
    match lazyInner kw u [] with
    | some g => some g
    | none =>
      match wsRev with
      | [] => none
      | [_] => none
      | w :: ws' => lazyKLoop kw ws' (w :: u)

/-- A single `exec` of a pattern `KW1\s+(.*?)\s+KW2` (i-flag): scan for the
leftmost position where the whole pattern matches and return the group. -/
def lazyBetween (kw1 kw2 : String) : Nat → List Char → Option (List Char)
  | 0, _ => none
  | _, [] => none
  | gas + 1, s =>
    let attempt :=
      match matchCIs kw1 s with
      | none => none
      | some s1 =>
        let ws := takeRun isWsChar s1
        if ws.1.isEmpty then none
        else lazyKLoop kw2 ws.1.reverse ws.2
    match attempt with
    | some g => some g
    | none =>
      match s with
      | [] => none
      | _ :: rest => lazyBetween kw1 kw2 gas rest

/-! ## Projection Extractor: `parseSelectClause` / `parseSelectColumns` -/

/-- The anchored test `^\w+\.\w+$` of line 123. -/
def anchoredQualRef (l : List Char) : Bool :=
  let w1 := takeRun isWordChar l
  if w1.1.isEmpty then false else
  match w1.2 with
  | '.' :: r2 =>
    let w2 := takeRun isWordChar r2
    ¬ w2.1.isEmpty ∧ w2.2.isEmpty
  | _ => false

/-- One attempt of the column pattern
`(\w+)\.(\w+)(?:\s+(?:AS\s+)?(\w+))?` (i-flag) at the current position.
The optional alias tail tries the `AS` alternative first and falls back to
reading the alias word directly; when neither succeeds the optional group
is absent and the match ends after the column name. -/
def tryColAt (s : List Char) : Option (String × String × Option String) :=
  let w1 := takeRun isWordChar s
  if w1.1.isEmpty then none else
  match w1.2 with
  | '.' :: r2 =>
    let w2 := takeRun isWordChar r2
    if w2.1.isEmpty then none else
    let wsA := takeRun isWsChar w2.2
    let fallback : Option String :=
      let w3 := takeRun isWordChar wsA.2
      if w3.1.isEmpty then none else some (String.mk w3.1)
    let al : Option String :=
      if wsA.1.isEmpty then none
      else
        match matchCIs "AS" wsA.2 with
        | some a2 =>
          let wsB := takeRun isWsChar a2
          if wsB.1.isEmpty then fallback
          else
            let w3 := takeRun isWordChar wsB.2
            if w3.1.isEmpty then fallback else some (String.mk w3.1)
        | none => fallback
    some (String.mk w1.1, String.mk w2.1, al)
  | _ => none

/-- The scan of `col.match(...)` (line 126): first match anywhere in the
item. -/
def colMatchScan : Nat → List Char → Option (String × String × Option String)
  | 0, _ => none
  | _, [] => none
  | gas + 1, s =>
    match tryColAt s with
    | some r => some r
    | none =>
      match s with
      | [] => none
      | _ :: rest => colMatchScan gas rest

/-- `parseSelectColumns` (src/sql-parser.js lines 110-132): return early on
a bare `*`; otherwise depth-split on commas and, for each item, skip items
containing `(` that are not a bare qualified reference, then register the
first qualified-column match. -/
def parseSelectColumns (st : SQLParser) (selectClause : List Char) : SQLParser :=
  if trimStr selectClause = "*" then st
  else
    (smartSplitAux ',' selectClause [] 0 []).foldl
      (fun a colStr =>
        let col := myTrim colStr.toList
        if col.contains '(' ∧ ¬ anchoredQualRef col then a
        else
          match colMatchScan (col.length + 1) col with
          | some (tr, cn, al) => addColumn a tr cn al
          | none => a)
      st

/-- `parseSelectClause` (src/sql-parser.js lines 67-76): a single `exec` of
`SELECT\s+(.*?)\s+FROM` feeding `parseSelectColumns`. -/
def parseSelectClause (st : SQLParser) (query : List Char) : SQLParser :=
  match lazyBetween "SELECT" "FROM" (query.length + 1) query with
  | some clause => parseSelectColumns st clause
  | none => st

/-! ## CTE Resolver: `parseWithClause` / `parseCTEs` -/

/-- The lazy body capture `\((.*?)\)`: the literal `(` has been consumed by
the caller; the group runs to the first `)` (no line terminator may occur
before it).  Returns the body and the rest after the closing `)`. -/
def cteBody : List Char → Option (List Char × List Char)
  | [] => none
  | ')' :: rest => some ([], rest)
  | c :: rest =>
    if isLineTerm c then none
    else
      match cteBody rest with
      | some r => some (c :: r.1, r.2)
      | none => none

/-- One attempt of the `parseCTEs` pattern `(\w+)\s+AS\s*\((.*?)\)` (i-flag)
at the current position; every choice point is deterministic (adjacent
pieces have disjoint classes, and the lazy group stops at the first `)`).
Returns the CTE name, its body, and the rest after the match. -/
def tryCteAt (s : List Char) : Option (String × List Char × List Char) :=
  let w1 := takeRun isWordChar s
  if w1.1.isEmpty then none else
  let ws1 := takeRun isWsChar w1.2
  if ws1.1.isEmpty then none else
  match matchCIs "AS" ws1.2 with
  | none => none
  | some t3 =>
    let ws2 := takeRun isWsChar t3
    match ws2.2 with
    | '(' :: t5 =>
      match cteBody t5 with
      | some r => some (String.mk w1.1, r.1, r.2)
      | none => none
    | _ => none

/-- The `exec` loop of `parseCTEs` (src/sql-parser.js lines 150-168).  For
each match the CTE name is registered as a table of type `cte`, the body is
parsed by a fresh engine (`sub`, the recursive invocation of the full
pipeline, passed as a parameter so that the recursion is carried by the
fuel of `parseQueryFuel`), and one relationship of type `cte` with wildcard
columns is appended from each sub-result table's `name` to the CTE name. -/
def parseCTEsScan (sub : String → Graph) : Nat → SQLParser → List Char → SQLParser
  | 0, st, _ => st
  | gas + 1, st, s =>
    match s with
    | [] => st
    | c :: rest =>
      match tryCteAt (c :: rest) with
      | some (cteName, body, rest') =>
        let st1 := addTable st cteName none "cte"
        let subResult := sub (String.mk body)
        let st2 := subResult.tables.foldl
          (fun a t => addRelationship a t.name "*" cteName "*" "cte") st1
        parseCTEsScan sub gas st2 rest'
      | none => parseCTEsScan sub gas st rest

/-- `parseCTEs` on a WITH-clause string. -/
def parseCTEs (sub : String → Graph) (st : SQLParser) (withClause : List Char) :
    SQLParser :=
  parseCTEsScan sub (withClause.length + 1) st withClause

/-- `parseWithClause` (src/sql-parser.js lines 78-87): a single `exec` of
`WITH\s+(.*?)\s+SELECT` feeding `parseCTEs`. -/
def parseWithClause (sub : String → Graph) (st : SQLParser) (query : List Char) :
    SQLParser :=
  match lazyBetween "WITH" "SELECT" (query.length + 1) query with
  | some clause => parseCTEs sub st clause
  | none => st

/-! ## The engine: `parseQuery` (src/sql-parser.js lines 8-28) -/

/-- The four extraction passes of `parseQuery` run from a freshly cleared
state over the cleaned query (lines 13-21 of the source reset
`this.tables`, `this.relationships` and `this.columns` before parsing).
`sub` is the engine used for CTE bodies. -/
def runPasses (sub : String → Graph) (cleaned : List Char) : SQLParser :=
  let st := emptySQLParser
  let st := parseFromClause st cleaned
  let st := parseJoins st cleaned
  let st := parseSelectClause st cleaned
  let st := parseWithClause sub st cleaned
  st

/-- The engine with explicit recursion fuel for the CTE recursion of
`parseCTEs` (the source recurses without any guard; every recursive call is
on a strict substring of the cleaned query, so fuel `length + 1` is never
exhausted and the `0` case is unreachable for the actual recursion
depths). -/
def parseQueryFuel : Nat → String → Graph
  | 0, _ => ⟨[], [], []⟩
  | f + 1, q => toGraph (runPasses (parseQueryFuel f) (cleanQueryL q.toList))

/-- `parseQuery` as a state transformer on a `SQLParser` instance: the
incoming instance state is discarded (the source clears all three
collections at entry before any read), the passes run, and the pair of the
final instance state and the returned graph is produced. -/
def parseQueryFrom (st : SQLParser) (q : String) : SQLParser × Graph :=
  let final := runPasses (parseQueryFuel q.length) (cleanQueryL q.toList)
  (final, toGraph final)

/-- The graph returned by `parseQuery` on a (non-null) string input. -/
def parseQueryGraph (q : String) : Graph :=
  (parseQueryFrom emptySQLParser q).2

/-- The JS error raised when `parseQuery` is called with `null` or
`undefined`: `cleanQuery` dereferences `query.replace`, raising a
`TypeError`. -/
inductive JsError where
  | typeError
deriving DecidableEq, Repr

/-- `parseQuery` including the nullable-argument behaviour: on `null` or
`undefined` input (`none`), `cleanQuery(sqlQuery)` on line 10 throws a
`TypeError` before the state reset on lines 13-15, so the instance state is
left untouched and no graph is produced; on a string input the engine runs
normally. -/
def parseQueryNullable (st : SQLParser) (q : Option String) :
    SQLParser × Except JsError Graph :=
  match q with
  | none => (st, Except.error JsError.typeError)
  | some s =>
    let r := parseQueryFrom st s
    (r.1, Except.ok r.2)

/-- The way `parseCTEs` is allowed to grow the parent state: the column map
is untouched, the table map gains only fresh `cte`-type registrations
(empty column arrays), and the relationship list gains only `cte`-type
edges with wildcard endpoints.  In particular nothing of a CTE sub-parse's
own tables or columns is copied into the parent state. -/
def CteExtends (st res : SQLParser) : Prop :=
  res.columns = st.columns
  ∧ (∃ ts, res.tables = st.tables ++ ts ∧ ∀ t ∈ ts, t.type = "cte" ∧ t.columns = [])
  ∧ (∃ rs, res.relationships = st.relationships ++ rs
      ∧ ∀ r ∈ rs, r.type = "cte" ∧ r.sourceColumn = "*" ∧ r.targetColumn = "*")

/-! # Theorems -/

theorem cteExtends_refl (st : SQLParser) : CteExtends st st :=
  ⟨rfl, ⟨[], by simp, by simp⟩, ⟨[], by simp, by simp⟩⟩

theorem cteExtends_trans {a b c : SQLParser} (h1 : CteExtends a b)
    (h2 : CteExtends b c) : CteExtends a c := by
  obtain ⟨hc1, ⟨ts1, et1, pt1⟩, ⟨rs1, er1, pr1⟩⟩ := h1
  obtain ⟨hc2, ⟨ts2, et2, pt2⟩, ⟨rs2, er2, pr2⟩⟩ := h2
  refine ⟨hc2.trans hc1, ⟨ts1 ++ ts2, ?_, ?_⟩, ⟨rs1 ++ rs2, ?_, ?_⟩⟩
  · rw [et2, et1, List.append_assoc]
  · intro t ht
    rcases List.mem_append.mp ht with h | h
    · exact pt1 t h
    · exact pt2 t h
  · rw [er2, er1, List.append_assoc]
  · intro r hr
    rcases List.mem_append.mp hr with h | h
    · exact pr1 r h
    · exact pr2 r h

theorem cteExtends_addTable (st : SQLParser) (n : String) :
    CteExtends st (addTable st n none "cte") := by
  simp only [addTable]
  split
  · exact cteExtends_refl st
  · exact ⟨rfl, ⟨[_], rfl, by simp⟩, ⟨[], by simp, by simp⟩⟩

theorem cteExtends_addRelationship (st : SQLParser) (s t : String) :
    CteExtends st (addRelationship st s "*" t "*" "cte") :=
  ⟨rfl, ⟨[], by simp [addRelationship], by simp⟩, ⟨[_], rfl, by simp⟩⟩

theorem cteExtends_foldRel (ts : List Table) (cteName : String) (st : SQLParser) :
    CteExtends st
      (ts.foldl (fun a t => addRelationship a t.name "*" cteName "*" "cte") st) := by
  induction ts generalizing st with
  | nil => exact cteExtends_refl st
  | cons t rest ih =>
    exact cteExtends_trans (cteExtends_addRelationship st t.name cteName) (ih _)

theorem cteExtends_scan (sub : String → Graph) (gas : Nat) (st : SQLParser)
    (s : List Char) : CteExtends st (parseCTEsScan sub gas st s) := by
  induction gas generalizing st s with
  | zero =>
    rw [show parseCTEsScan sub 0 st s = st from rfl]
    exact cteExtends_refl st
  | succ g ih =>
    cases s with
    | nil =>
      rw [show parseCTEsScan sub (g + 1) st [] = st from rfl]
      exact cteExtends_refl st
    | cons c rest =>
      simp only [parseCTEsScan]
      cases h : tryCteAt (c :: rest) with
      | none => exact ih st rest
      | some r =>
        obtain ⟨name, body, rest'⟩ := r
        exact cteExtends_trans
          (cteExtends_trans (cteExtends_addTable st name)
            (cteExtends_foldRel _ name _)) (ih _ rest')

/-! ## Claim C1 -/

/-- C1, counterexample.  For
`WITH x AS (SELECT * FROM src) SELECT * FROM x` the claim asserts a table
`src`, a table `x` of kind `cte` and a `flow`-type relationship; in fact the
returned graph has no relationship of type `flow`, no table named `src`,
and no table of type `cte`. -/
theorem C1_counterexample :
    ((parseQueryGraph "WITH x AS (SELECT * FROM src) SELECT * FROM x").relationships.all
        fun r => r.type != "flow") = true
    ∧ ((parseQueryGraph "WITH x AS (SELECT * FROM src) SELECT * FROM x").tables.all
        fun t => t.name != "src") = true
    ∧ ((parseQueryGraph "WITH x AS (SELECT * FROM src) SELECT * FROM x").tables.all
        fun t => t.type != "cte") = true := by
  refine ⟨?_, ?_, ?_⟩ <;> rfl

/-- C1, amended.  For `WITH x AS (SELECT * FROM src) SELECT * FROM x`,
`parseQuery` returns the tables `s` and `x` — `s` (not `src`) because the
FROM regex's character class `[^WHERE|JOIN|...]` stops at the letter `r` of
`src`, and `x` of type `table` (not `cte`) because the FROM pass registers
`x` before the WITH pass and re-registration is a no-op — together with the
single relationship `{source: "s", sourceColumn: "*", target: "x",
targetColumn: "*", type: "cte"}` (type `cte`, not `flow`). -/
theorem C1_amended :
    parseQueryGraph "WITH x AS (SELECT * FROM src) SELECT * FROM x" =
      ⟨[⟨"s", "s", none, "table", []⟩, ⟨"x", "x", none, "table", []⟩],
       [⟨"s.*->x.*", "s", "*", "x", "*", "cte"⟩], []⟩ := by
  rfl

/-! ## Claim C2 -/

/-- C2.  The claim (and the spec's test) expects
`FROM bronze.customers c` to yield the table
`{id: "c", name: "bronze.customers", alias: "c"}`.  The code's FROM regex
`FROM\s+([^WHERE|JOIN|GROUP|ORDER|HAVING|LIMIT|;]+)` uses a character class
(inside `[...]` the `|` is literal and the keywords are just letters), so
the capture stops at the first such letter — here the `r` of `bronze` — and
the single registered table is `{id: "b", name: "b", alias: null}`. -/
theorem C2_actual :
    parseQueryGraph "FROM bronze.customers c" =
      ⟨[⟨"b", "b", none, "table", []⟩], [], []⟩ := by
  rfl

/-! ## Claim C3 -/

/-- C3.  The claim (and the spec's test) expects
`FROM a JOIN b ON a.id = b.a_id` to yield tables `a`, `b` and one `join`
relationship.  In fact the graph is empty: the FROM regex's character class
rejects the letter `a` (it occurs in `HAVING`) right after `FROM `, and the
ON-condition class of the JOIN regex likewise rejects the `a` of `a.id`, so
neither pattern matches anywhere. -/
theorem C3_actual :
    parseQueryGraph "FROM a JOIN b ON a.id = b.a_id" = ⟨[], [], []⟩ := by
  rfl

/-! ## Claim C4 -/

/-- C4.  For `SELECT t.foo, t.bar AS baz FROM t` the two column entries
`t.foo` and `t.bar` (the latter with alias `baz`) are produced as the claim
says, but no table `t` is ever registered — the FROM regex's character
class rejects the letter `t` (it occurs in `LIMIT`) — so the columns are
attached to no table, contradicting the claim's second half. -/
theorem C4_actual :
    parseQueryGraph "SELECT t.foo, t.bar AS baz FROM t" =
      ⟨[], [],
       [⟨"t.foo", "t", "foo", none, "column"⟩,
        ⟨"t.bar", "t", "bar", some "baz", "column"⟩]⟩ := by
  rfl

/-! ## Claim C5 -/

/-- C5, counterexample.  The claim says a CTE sub-parse's internal tables do
not appear in the parent's output graph.  But the parent's own FROM pass
scans the whole query text including the CTE body, so for
`WITH x AS (SELECT * FROM src) SELECT * FROM x` the very table record that
the sub-parse of `SELECT * FROM src` produces (id `s`) also appears among
the parent's output tables. -/
theorem C5_counterexample :
    (⟨"s", "s", none, "table", []⟩ : Table) ∈
        (parseQueryGraph "SELECT * FROM src").tables
    ∧ (⟨"s", "s", none, "table", []⟩ : Table) ∈
        (parseQueryGraph "WITH x AS (SELECT * FROM src) SELECT * FROM x").tables := by
  exact ⟨by decide, by decide⟩

/-- C5, amended.  The fold of a CTE sub-parse into the parent state adds
nothing to the parent's column map, adds to the table map only fresh
`cte`-type registrations (the CTE names themselves, with empty column
arrays), and appends to the relationship list only `cte`-type edges with
wildcard source and target columns; none of the sub-result's tables or
columns is copied in.  (The parent's own FROM/JOIN/SELECT passes still scan
the full text including CTE bodies and may register the same tables
independently, which is what falsifies the original claim.)  Stated for the
whole WITH pass, for any sub-engine `sub` — in particular the recursive
`parseQueryFuel` used by `parseQuery`. -/
theorem C5_amended (sub : String → Graph) (st : SQLParser) (q : List Char) :
    CteExtends st (parseWithClause sub st q) := by
  unfold parseWithClause
  split
  · exact cteExtends_scan sub _ st _
  · exact cteExtends_refl st

/-! ## Claim C6 -/

/-- C6.  On every (non-null) string input the engine returns a graph and
raises no error — in the embedding `parseQueryNullable` yields `Except.ok`
for every `some` input — and both the empty query and a fully-unsupported
query (the spec's subquery-in-FROM example `FROM (SELECT 1) t`) yield the
empty graph with empty tables, relationships and columns. -/
theorem C6_total_and_empty :
    (∀ (st : SQLParser) (s : String), ∃ g : Graph,
        (parseQueryNullable st (some s)).2 = Except.ok g)
    ∧ parseQueryGraph "" = ⟨[], [], []⟩
    ∧ parseQueryGraph "FROM (SELECT 1) t" = ⟨[], [], []⟩ :=
  ⟨fun st s => ⟨(parseQueryFrom st s).2, rfl⟩, rfl, rfl⟩

/-! ## Claim C7 -/

/-- C7.  `parseQuery` is deterministic and stateless: the instance state is
cleared at entry before any read, so the result (both the returned graph
and the final instance state) is a function of the input text alone — two
invocations from arbitrary prior states agree, and in particular a second
invocation on an instance that already parsed arbitrary other input agrees
with a fresh invocation. -/
theorem C7_deterministic_stateless :
    (∀ (st1 st2 : SQLParser) (q : String),
        parseQueryFrom st1 q = parseQueryFrom st2 q)
    ∧ (∀ (st : SQLParser) (p q : String),
        parseQueryFrom (parseQueryFrom st p).1 q = parseQueryFrom st q) :=
  ⟨fun _ _ _ => rfl, fun _ _ _ => rfl⟩

/-! ## Claim C8 -/

theorem smartSplitAux_eq_spec (d : Char) (h1 : d ≠ '(') (h2 : d ≠ ')') :
    ∀ (l : List Char) (cur : List Char) (depth : Int) (acc : List String),
      smartSplitAux d l cur depth acc = specSmartSplitAux d l cur depth acc := by
  intro l
  induction l with
  | nil => intro cur depth acc; rfl
  | cons c rest ih =>
    intro cur depth acc
    simp only [smartSplitAux, specSmartSplitAux]
    by_cases hco : c = '('
    · have hcd : ¬ (c = d ∧ depth = 0) := by
        rintro ⟨h, -⟩
        exact h1 (h ▸ hco.symm ▸ rfl)
      rw [if_pos hco, if_neg hcd, if_pos hco]
      exact ih _ _ _
    · by_cases hcc : c = ')'
      · have hcd : ¬ (c = d ∧ depth = 0) := by
          rintro ⟨h, -⟩
          exact h2 (h ▸ hcc.symm ▸ rfl)
        rw [if_neg hco, if_pos hcc, if_neg hcd, if_neg hco, if_pos hcc]
        exact ih _ _ _
      · by_cases hcd : c = d ∧ depth = 0
        · rw [if_neg hco, if_neg hcc, if_pos hcd, if_pos hcd]
          exact ih _ _ _
        · rw [if_neg hco, if_neg hcc, if_neg hcd, if_neg hcd, if_neg hco, if_neg hcc]
          exact ih _ _ _

/-- C8, counterexample.  The claim quantifies over every delimiter
character; for the delimiter `(` the source checks the parenthesis branch
first and therefore never splits, while the claim's description (split at
every delimiter occurrence at depth zero) would split `a(b` into `a` and
`b`. -/
theorem C8_counterexample :
    smartSplit "a(b" '(' = ["a(b"] ∧ specSmartSplit "a(b" '(' = ["a", "b"] :=
  ⟨rfl, rfl⟩

/-- C8, amended.  For every string and every delimiter other than the two
parenthesis characters, `smartSplit` returns exactly the trimmed segments
obtained by splitting at delimiter occurrences at parenthesis depth zero
(depth incremented on `(`, decremented on `)`), a trailing non-empty
remainder emitted and a trailing empty one dropped — the behaviour
formalised by `specSmartSplit`, transcribed from the specification's
words. -/
theorem C8_amended (s : String) (d : Char) (h1 : d ≠ '(') (h2 : d ≠ ')') :
    smartSplit s d = specSmartSplit s d :=
  smartSplitAux_eq_spec d h1 h2 s.toList [] 0 []

/-- C8, witness: the amended theorem applied to the SELECT-list style input
`f(a,b),c` with the comma delimiter. -/
theorem C8_witness :
    (',' ≠ '(') ∧ (',' ≠ ')')
    ∧ smartSplit "f(a,b),c" ',' = specSmartSplit "f(a,b),c" ',' :=
  ⟨by decide, by decide, C8_amended "f(a,b),c" ',' (by decide) (by decide)⟩

/-! ## Claim C9 -/

/-- C9.  Table registration is first-write-wins: whenever the id computed
for a registration (`alias || cleanName`, the alias if present and
non-empty, else the name with quoting characters stripped) is already a key
of the table map, `addTable` leaves the state — in particular the stored
table entry — completely unchanged, whatever name, alias and kind the later
registration carries. -/
theorem C9_first_write_wins (st : SQLParser) (name : String) (al : Option String)
    (ty : String)
    (h : jsOr al (String.mk (cleanTableName name.toList)) ∈ st.tables.map Table.id) :
    addTable st name al ty = st := by
  obtain ⟨t, ht, hid⟩ := List.mem_map.mp h
  simp only [addTable]
  rw [if_pos]
  rw [List.any_eq_true]
  exact ⟨t, ht, by simp [hid]⟩

/-- C9, witness: registering `y` under the already-taken alias `x` (a
different name and kind) is a no-op. -/
theorem C9_witness :
    jsOr (some "x") (String.mk (cleanTableName "y".toList)) ∈
        (addTable emptySQLParser "x" none "table").tables.map Table.id
    ∧ addTable (addTable emptySQLParser "x" none "table") "y" (some "x") "cte" =
        addTable emptySQLParser "x" none "table" :=
  ⟨by decide, C9_first_write_wins _ _ _ _ (by decide)⟩

/-! ## Claim C10 -/

/-- C10.  On `null`/`undefined` input (`none`), `parseQuery` raises a
`TypeError` from `cleanQuery`'s dereference of the input before the state
reset — the instance state is returned untouched and no graph is produced —
whereas the empty string input returns an empty graph; the two cases are
distinguishable. -/
theorem C10_null_raises :
    ∀ st : SQLParser,
      parseQueryNullable st none = (st, Except.error JsError.typeError)
      ∧ (parseQueryNullable st (some "")).2 = Except.ok (⟨[], [], []⟩ : Graph)
      ∧ (parseQueryNullable st none).2 ≠ (parseQueryNullable st (some "")).2 :=
  fun st => ⟨rfl, rfl, fun h => Except.noConfusion h⟩

end SqlLineage
